import Mathlib

/-!
Formal model of the EPCIS validation engine of this repository
(backend/epcis: utils.py, identifier_validation.py, event_validation.py,
sequence_validation.py, parser.py, main_validator.py), as a shallow
embedding in Lean, together with theorems settling the frozen claims
about it.

Modelling conventions:
* Python strings are Lean `String`s; regex matching over the anchored
  patterns of `identifier_validation.py` is implemented directly as
  character-list matchers (the patterns involve only literal prefixes,
  digit runs and an alphanumeric run, for which greedy matching with
  backtracking coincides with maximal-run matching, since the characters
  that follow a run never belong to the run's class).
* Python exceptions are `Except String` with the message of `str(e)`;
  code that catches exceptions is modelled by matching on the `Except`
  value at the same place the `try/except` sits in the source.
* Python dicts with known keys are structures whose `Option` fields model
  key presence; dicts with open key sets (ilmd, JSON objects) are
  association lists.  Python `dict.get(k, d)` is `Option.getD`.
* Python sets that are only queried for membership are lists (for the
  company set, insertion order stands in for the CPython iteration order,
  which is fixed within one process run).
-/

/-- A validation error dictionary as produced by `utils.add_error` and the
parsers: keys `type`, `severity`, `message`, and `line_number` (the latter
present only when a line number was supplied). -/
structure VError where
  etype : String
  severity : String
  message : String
  line : Option Int := none
  deriving DecidableEq, Repr

/-! ## Identifier validation (`identifier_validation.py`) -/

/-- Character-list version of matching a literal prefix: returns the
remainder of the input after the prefix, if the prefix matches. -/
def stripLit : List Char → List Char → Option (List Char)
  | [], cs => some cs
  | _ :: _, [] => none
  | p :: ps, c :: cs => if c = p then stripLit ps cs else none

/-- Kernel-computable splitter on a nonempty separator (Python
`s.split(sep)` semantics).  The fuel (always initialized above the input
length, which bounds the recursion depth) keeps the recursion structural
so that closed applications reduce. -/
def chSplitOnFuel (c0 : Char) (cs : List Char) : Nat → List Char → List Char → List (List Char)
  | 0, _, cur => [cur.reverse]
  | _ + 1, [], cur => [cur.reverse]
  | fuel + 1, c :: rest, cur =>
      match stripLit (c0 :: cs) (c :: rest) with
      | some r => cur.reverse :: chSplitOnFuel c0 cs fuel r []
      | none => chSplitOnFuel c0 cs fuel rest (c :: cur)

/-- Python `s.split(sep)` for a nonempty `sep` (the engine never splits
on an empty separator). -/
def splitOnStr (sep s : String) : List String :=
  match sep.data with
  | [] => [s]
  | c :: cs => (chSplitOnFuel c cs (s.data.length + 1) s.data []).map String.mk

def strStartsWith (s pre : String) : Bool := (stripLit pre.data s.data).isSome

def strEndsWith (s suf : String) : Bool :=
  (stripLit suf.data.reverse s.data.reverse).isSome

def toLowerStr (s : String) : String := String.mk (s.data.map Char.toLower)

/-- Python `str.strip()` (over the ASCII whitespace the engine meets). -/
def trimStr (s : String) : String :=
  String.mk (((s.data.dropWhile Char.isWhitespace).reverse.dropWhile
    Char.isWhitespace).reverse)

/-- Matcher for the anchored tail `(\d+)\.(\d+)$` used by the sscc, sgln,
grai and giai patterns: a nonempty digit run, a literal dot, then a
nonempty digit run to the end.  (The greedy `\d+` takes the maximal digit
run; backtracking can never help because a shorter first group would leave
a digit where the regex requires the dot.) -/
def matchTwoNum (cs : List Char) : Option (List Char × List Char) :=
  let a := cs.takeWhile Char.isDigit
  match cs.dropWhile Char.isDigit with
  | c :: b =>
      if c = '.' then
        if a = [] then none
        else if b = [] then none
        else if b.all Char.isDigit then some (a, b) else none
      else none
  | [] => none

/-- Matcher for the anchored sgtin tail
`(\d+)\.(\d+)\.([A-Za-z0-9]{1,20})$`. -/
def matchSgtinTail (cs : List Char) : Option (List Char × List Char × List Char) :=
  let a := cs.takeWhile Char.isDigit
  match cs.dropWhile Char.isDigit with
  | c :: rest1 =>
      if c = '.' then
        let b := rest1.takeWhile Char.isDigit
        match rest1.dropWhile Char.isDigit with
        | c2 :: serial =>
            if c2 = '.' then
              if a = [] then none
              else if b = [] then none
              else if serial = [] then none
              else if serial.length ≤ 20 ∧ serial.all Char.isAlphanum then some (a, b, serial)
              else none
            else none
        | [] => none
      else none
  | [] => none

def sgtinPfx : List Char := "urn:epc:id:sgtin:".data
def ssccPfx : List Char := "urn:epc:id:sscc:".data
def sglnPfx : List Char := "urn:epc:id:sgln:".data
def graiPfx : List Char := "urn:epc:id:grai:".data
def giaiPfx : List Char := "urn:epc:id:giai:".data

/-- Index-weighted digit total of `calculate_gs1_check_digit`: index `i`
(0-based over the reversed string) weighs 3 when even, 1 when odd. -/
def gs1WeightedTotal : Nat → List Char → Nat
  | _, [] => 0
  | i, c :: rest => (c.toNat - '0'.toNat) * (if i % 2 = 0 then 3 else 1) + gs1WeightedTotal (i + 1) rest

/-- `GS1IdentifierValidator.calculate_gs1_check_digit`, with the digit
returned as a number. -/
def calculate_gs1_check_digit (s : List Char) : Nat :=
  (10 - gs1WeightedTotal 0 s.reverse % 10) % 10

/-- `GS1IdentifierValidator.validate_gs1_check_digit`: requires a nonempty
all-digit string (`str.isdigit`), then compares the computed check digit of
all but the last digit with the last digit. -/
def validate_gs1_check_digit (full : List Char) : Bool :=
  if h : full = [] then false
  else if ¬ (full.all Char.isDigit) then false
  else calculate_gs1_check_digit full.dropLast = (full.getLast h).toNat - '0'.toNat

/-- `GS1IdentifierValidator.validate_epc_format`.  The patterns are tried
in the insertion order of `EPC_PATTERNS` (sgtin, sscc, sgln, grai, giai);
a pattern that fails to match falls through to the next.  For sscc the
matched digit groups are concatenated and must have length 17 (they are
digits by the pattern, so the source's `combined.isdigit()` holds); for
sgln the concatenation must pass the GS1 check digit; grai and giai accept
on match (their groups are digits by the pattern). -/
def validate_epc_format (epc : String) : Bool :=
  match (stripLit sgtinPfx epc.data).bind matchSgtinTail with
  | some _ => true
  | none =>
  match (stripLit ssccPfx epc.data).bind matchTwoNum with
  | some (a, b) => (a ++ b).length = 17
  | none =>
  match (stripLit sglnPfx epc.data).bind matchTwoNum with
  | some (a, b) => validate_gs1_check_digit (a ++ b)
  | none =>
  match (stripLit graiPfx epc.data).bind matchTwoNum with
  | some _ => true
  | none =>
  match (stripLit giaiPfx epc.data).bind matchTwoNum with
  | some _ => true
  | none => false

/-- `GS1IdentifierValidator.extract_company_prefix` (final name word
abbreviated).  Splits on `:`; with at least five segments the company
prefix is the fifth segment up to the first dot. -/
def extractCompanyPfx (epc : String) : Option String :=
  if epc = "" then none
  else
    let parts := splitOnStr ":" epc
    if parts.length ≥ 5 then
      match parts[4]? with
      | some seg => some (((splitOnStr "." seg).headD ""))
      | none => none
    else none

/-- `GS1IdentifierValidator.validate_company_prefix`: the extracted prefix
must be truthy (nonempty) and a member of the authorized set. -/
def validateCompanyPfx (epc : String) (auth : List String) : Bool :=
  match extractCompanyPfx epc with
  | some p => if p = "" then false else p ∈ auth
  | none => false

/-! ### Facts about the sscc branch, towards claim C9 -/

theorem stripLit_self (p : List Char) (rest : List Char) :
    stripLit p (p ++ rest) = some rest := by
  induction p with
  | nil => rfl
  | cons c cs ih => simp [stripLit, ih]

theorem all_takeWhile_self (p : Char → Bool) (l : List Char) :
    (l.takeWhile p).all p = true := by
  induction l with
  | nil => rfl
  | cons x xs ih =>
      by_cases h : p x <;> simp [List.takeWhile, h, ih]

theorem takeWhile_digits_dot (a b : List Char) (ha : a.all Char.isDigit) :
    (a ++ '.' :: b).takeWhile Char.isDigit = a ∧
    (a ++ '.' :: b).dropWhile Char.isDigit = '.' :: b := by
  induction a with
  | nil =>
      have h : Char.isDigit '.' = false := by decide
      simp [List.takeWhile, List.dropWhile, h]
  | cons c cs ih =>
      simp only [List.all_cons, Bool.and_eq_true] at ha
      simp [List.takeWhile, List.dropWhile, ha.1, ih ha.2]

/-- Characterization of the `(\d+)\.(\d+)$` matcher. -/
theorem matchTwoNum_iff (cs a b : List Char) :
    matchTwoNum cs = some (a, b) ↔
      (cs = a ++ '.' :: b ∧ a ≠ [] ∧ a.all Char.isDigit ∧ b ≠ [] ∧ b.all Char.isDigit) := by
  constructor
  · intro h
    unfold matchTwoNum at h
    rcases hd : cs.dropWhile Char.isDigit with _ | ⟨c, rest⟩ <;> rw [hd] at h
    · simp at h
    · by_cases hc : c = '.'
      · subst hc
        by_cases hA : cs.takeWhile Char.isDigit = []
        · simp [hA] at h
        · by_cases hB : rest = []
          · simp [hA, hB] at h
          · by_cases hBd : rest.all Char.isDigit
            · simp only [if_pos rfl, if_neg hA, if_neg hB, hBd, if_pos] at h
              simp only [if_true, Option.some.injEq, Prod.mk.injEq] at h
              obtain ⟨rfl, rfl⟩ := h
              refine ⟨?_, hA, all_takeWhile_self _ _, hB, hBd⟩
              conv_lhs => rw [← List.takeWhile_append_dropWhile (p := Char.isDigit) (l := cs)]
              rw [hd]
            · simp [hA, hB, hBd] at h
      · simp [hc] at h
  · rintro ⟨rfl, hA, hAd, hB, hBd⟩
    have htd := takeWhile_digits_dot a b hAd
    unfold matchTwoNum
    rw [htd.2]
    simp [htd.1, hA, hB, hBd]

theorem stripLit_sgtin_of_sscc (rest : List Char) :
    stripLit sgtinPfx (ssccPfx ++ rest) = none := rfl

theorem stripLit_sgln_of_sscc (rest : List Char) :
    stripLit sglnPfx (ssccPfx ++ rest) = none := rfl

theorem stripLit_grai_of_sscc (rest : List Char) :
    stripLit graiPfx (ssccPfx ++ rest) = none := rfl

theorem stripLit_giai_of_sscc (rest : List Char) :
    stripLit giaiPfx (ssccPfx ++ rest) = none := rfl

/-- C9: `validate_epc_format` accepts an SSCC URN (a string with the
literal prefix `urn:epc:id:sscc:`) if and only if the remainder matches
`(\d+)\.(\d+)` anchored to the end and the two digit groups together have
exactly 17 digits; in particular every such URN whose combined digit count
is 16 or 18 is rejected. -/
theorem C9_sscc_seventeen_digits :
    (∀ rest : List Char,
      validate_epc_format (String.mk (ssccPfx ++ rest)) = true ↔
        ∃ a b : List Char, rest = a ++ '.' :: b ∧ a ≠ [] ∧ a.all Char.isDigit ∧
          b ≠ [] ∧ b.all Char.isDigit ∧ a.length + b.length = 17) ∧
    (∀ a b : List Char, a ≠ [] → a.all Char.isDigit → b ≠ [] → b.all Char.isDigit →
      (a.length + b.length = 16 ∨ a.length + b.length = 18) →
      validate_epc_format (String.mk (ssccPfx ++ (a ++ '.' :: b))) = false) := by
  have key : ∀ rest : List Char,
      validate_epc_format (String.mk (ssccPfx ++ rest)) =
        (match matchTwoNum rest with
          | some (a, b) => ((a ++ b).length = 17 : Bool)
          | none => false) := by
    intro rest
    unfold validate_epc_format
    rw [show (String.mk (ssccPfx ++ rest)).data = ssccPfx ++ rest from rfl]
    rw [stripLit_sgtin_of_sscc, stripLit_self, stripLit_sgln_of_sscc,
      stripLit_grai_of_sscc, stripLit_giai_of_sscc]
    cases hm : matchTwoNum rest with
    | none => simp [Option.bind, hm]
    | some ab => cases ab with
      | mk a b => simp [Option.bind, hm]
  constructor
  · intro rest
    rw [key rest]
    cases hm : matchTwoNum rest with
    | none =>
        simp only [Bool.false_eq_true, false_iff]
        rintro ⟨a, b, rfl, hA, hAd, hB, hBd, _⟩
        have := (matchTwoNum_iff (a ++ '.' :: b) a b).mpr ⟨rfl, hA, hAd, hB, hBd⟩
        rw [this] at hm
        exact Option.noConfusion hm
    | some ab =>
        obtain ⟨a, b⟩ := ab
        obtain ⟨hcs, hA, hAd, hB, hBd⟩ := (matchTwoNum_iff rest a b).mp hm
        constructor
        · intro h17
          exact ⟨a, b, hcs, hA, hAd, hB, hBd, by
            simpa [List.length_append] using of_decide_eq_true h17⟩
        · rintro ⟨a2, b2, hcs2, hA2, hAd2, hB2, hBd2, hlen2⟩
          have hm2 : matchTwoNum rest = some (a2, b2) :=
            (matchTwoNum_iff rest a2 b2).mpr ⟨hcs2, hA2, hAd2, hB2, hBd2⟩
          rw [hm] at hm2
          obtain ⟨rfl, rfl⟩ : a = a2 ∧ b = b2 := by
            have := Option.some.inj hm2
            exact ⟨congrArg Prod.fst this, congrArg Prod.snd this⟩
          simpa [List.length_append] using hlen2
  · intro a b hA hAd hB hBd hlen
    rw [key (a ++ '.' :: b)]
    have hm : matchTwoNum (a ++ '.' :: b) = some (a, b) :=
      (matchTwoNum_iff _ a b).mpr ⟨rfl, hA, hAd, hB, hBd⟩
    rw [hm]
    rcases hlen with h | h <;> simp [List.length_append, h]

/-- Witness for C9: `urn:epc:id:sscc:0614141.1234567890` (7+10 = 17
digits) is accepted and `urn:epc:id:sscc:0614141.123456789` (7+9 = 16
digits) is rejected, both obtained through `C9_sscc_seventeen_digits`. -/
theorem C9_sscc_seventeen_digits_witness :
    validate_epc_format "urn:epc:id:sscc:0614141.1234567890" = true ∧
    validate_epc_format "urn:epc:id:sscc:0614141.123456789" = false := by
  constructor
  · have h := (C9_sscc_seventeen_digits.1 "0614141.1234567890".data).mpr
      ⟨"0614141".data, "1234567890".data, by decide, by decide, by decide, by decide,
        by decide, by decide⟩
    exact h
  · have h := C9_sscc_seventeen_digits.2 "0614141".data "123456789".data
      (by decide) (by decide) (by decide) (by decide) (Or.inl (by decide))
    exact h

/-! ## Dates and times (`utils.py`, `event_validation.py`)

`datetime.strptime` with the formats used by the engine is modelled
directly from CPython's `_strptime` field regexes: `%Y` matches exactly
four digits, `%m`/`%H`/`%M`/`%S` match 1-2 digits (with the two-digit
regex alternatives bounding the value), `%d` matches a 1-2 digit day or
the ANSI-C space-padded single digit, `%f` matches 1-6 digits, and the
`datetime` constructor enforces year ≥ 1, a real calendar date, and
seconds ≤ 59. -/

def digitsToNat (l : List Char) : Nat :=
  l.foldl (fun acc c => acc * 10 + (c.toNat - '0'.toNat)) 0

def strToNat (s : String) : Nat := digitsToNat s.data

def isLeapYear (y : Nat) : Bool := y % 4 = 0 ∧ (y % 100 ≠ 0 ∨ y % 400 = 0)

def daysInMonth (y m : Nat) : Nat :=
  if m = 2 then (if isLeapYear y then 29 else 28)
  else if m = 4 ∨ m = 6 ∨ m = 9 ∨ m = 11 then 30 else 31

/-- A nonempty all-digit string of at most `k` characters. -/
def digitRun1to (k : Nat) (s : String) : Bool :=
  s.data ≠ [] ∧ s.data.all Char.isDigit ∧ s.length ≤ k

/-- The `%Y` field of CPython `strptime`: exactly four digits
(`TimeRE` compiles it to four digit atoms). -/
def validYear4 (s : String) : Bool := s.length = 4 ∧ s.data.all Char.isDigit

/-- The `%d` field of CPython `strptime`
(`3[01]|[12]\d|0[1-9]|[1-9]| [1-9]`): a 1-2 digit day, or the ANSI-C
space-padded single digit 1-9.  The numeric value is range-checked by the
`datetime` constructor afterwards (which also rules out `0` and `00`). -/
def parseDayField (s : String) : Option Nat :=
  match s.data with
  | [' ', c] => if c.isDigit ∧ c ≠ '0' then some (c.toNat - '0'.toNat) else none
  | l => if l ≠ [] ∧ l.all Char.isDigit ∧ l.length ≤ 2 then some (digitsToNat l) else none

/-- `datetime.strptime(s, "%Y-%m-%d")`, as the parsed (year, month, day). -/
def parseDateYMD (s : String) : Option (Nat × Nat × Nat) :=
  match splitOnStr "-" s with
  | [ys, ms, ds] =>
      if validYear4 ys ∧ digitRun1to 2 ms then
        match parseDayField ds with
        | some d =>
            let y := strToNat ys
            let m := strToNat ms
            if 1 ≤ y ∧ 1 ≤ m ∧ m ≤ 12 ∧ 1 ≤ d ∧ d ≤ daysInMonth y m then some (y, m, d)
            else none
        | none => none
      else none
  | _ => none

/-- `utils.validate_date_format` with the default format `%Y-%m-%d`
(the only format the engine passes).  The source also logs a warning to
the module-level aggregator on failure; that aggregator is never read back
into any report, so only the boolean is modelled. -/
def validate_date_format (s : String) : Bool := (parseDateYMD s).isSome

/-- Monotone encoding of a calendar date, for comparisons. -/
def dateKey : Nat × Nat × Nat → Nat
  | (y, m, d) => (y * 13 + m) * 32 + d

/-- `utils.validate_dates_order` (the two-argument function): parses both
dates with `%Y-%m-%d` and requires the later to be strictly after the
earlier; any parse failure yields `False` (after global-only logging). -/
def validate_dates_order (earlier later : String) : Bool :=
  match parseDateYMD earlier, parseDateYMD later with
  | some e, some l => dateKey l > dateKey e
  | _, _ => false

/-- A 1-2 digit numeric field whose two-digit form is bounded (the
`strptime` regex alternatives, plus the `datetime` constructor bound for
seconds). -/
def validNum2 (s : String) (maxTwo : Nat) : Bool :=
  s.data ≠ [] ∧ s.data.all Char.isDigit ∧
  (s.length = 1 ∨ (s.length = 2 ∧ strToNat s ≤ maxTwo))

def stripZ (s : String) : Option String :=
  match s.data.reverse with
  | 'Z' :: rest => some (String.mk rest.reverse)
  | _ => none

/-- `datetime.strptime(s, "%Y-%m-%dT%H:%M:%SZ")` succeeds. -/
def validEventTimeNoFrac (s : String) : Bool :=
  match splitOnStr "T" s with
  | [d, t] =>
      (parseDateYMD d).isSome &&
      (match splitOnStr ":" t with
       | [hh, mm, rest] =>
           validNum2 hh 23 && validNum2 mm 59 &&
           (match stripZ rest with
            | some ss => validNum2 ss 59
            | none => false)
       | _ => false)
  | _ => false

/-- `datetime.strptime(s, "%Y-%m-%dT%H:%M:%S.%fZ")` succeeds. -/
def validEventTimeFrac (s : String) : Bool :=
  match splitOnStr "T" s with
  | [d, t] =>
      (parseDateYMD d).isSome &&
      (match splitOnStr ":" t with
       | [hh, mm, rest] =>
           validNum2 hh 23 && validNum2 mm 59 &&
           (match splitOnStr "." rest with
            | [ss, fz] =>
                validNum2 ss 59 &&
                (match stripZ fz with
                 | some f => digitRun1to 6 f
                 | none => false)
            | _ => false)
       | _ => false)
  | _ => false

/-- `EPCISEventValidator._validate_event_time`'s nested `try`: the
fractional format is tried first, then the plain one. -/
def validEventTime (s : String) : Bool := validEventTimeFrac s || validEventTimeNoFrac s

/-- `EPCISEventValidator._is_valid_timezone`: `^[+-]\d{2}:\d{2}$`, hours
0-14, minutes in {00, 15, 30, 45}. -/
def isValidTimezone (tz : String) : Bool :=
  match tz.data with
  | [sg, h1, h2, col, m1, m2] =>
      (sg = '+' ∨ sg = '-') ∧ h1.isDigit ∧ h2.isDigit ∧ col = ':' ∧ m1.isDigit ∧ m2.isDigit ∧
      ((h1.toNat - '0'.toNat) * 10 + (h2.toNat - '0'.toNat) ≤ 14 ∧
       ((m1.toNat - '0'.toNat) * 10 + (m2.toNat - '0'.toNat) = 0 ∨
        (m1.toNat - '0'.toNat) * 10 + (m2.toNat - '0'.toNat) = 15 ∨
        (m1.toNat - '0'.toNat) * 10 + (m2.toNat - '0'.toNat) = 30 ∨
        (m1.toNat - '0'.toNat) * 10 + (m2.toNat - '0'.toNat) = 45))
  | _ => false

/-! ## Error aggregation (`utils.ErrorAggregator`)

The `validate_document` pipeline of `main_validator.py` never invokes the
aggregator; it is modelled here because claim C5 concerns it.  The
`defaultdict(list)` keyed by `(type, severity, base_message, line_number)`
is an insertion-ordered association list. -/

structure AggKey where
  etype : String
  severity : String
  baseMsg : String
  line : Option Int
  deriving DecidableEq, Repr

structure AggItem where
  message : String
  identifier : Option String
  line : Option Int
  deriving DecidableEq, Repr

/-- Split a list at the first occurrence of `sep`, returning the parts
before and after it (Python `s.split(sep, 1)` when `sep in s`). -/
def splitFirstCh (sep : List Char) : List Char → Option (List Char × List Char)
  | [] => (stripLit sep []).map (fun r => ([], r))
  | c :: rest =>
      match stripLit sep (c :: rest) with
      | some r => some ([], r)
      | none =>
          match splitFirstCh sep rest with
          | some (l, r) => some (c :: l, r)
          | none => none

/-- `ErrorAggregator.add_error`'s message decomposition: when
`'for urn:epc:'` occurs in the message, the base message is the stripped
left part and the identifier is `urn:epc:` plus the stripped right part. -/
def aggSplitMsg (msg : String) : String × Option String :=
  match splitFirstCh ("for urn:epc:".data) msg.data with
  | some (l, r) => (trimStr (String.mk l), some ("urn:epc:" ++ trimStr (String.mk r)))
  | none => (msg, none)

/-- `ErrorAggregator.add_error`. -/
def add_error_agg (st : List (AggKey × List AggItem))
    (etype severity msg : String) (line : Option Int) : List (AggKey × List AggItem) :=
  let p := aggSplitMsg msg
  let k : AggKey := ⟨etype, severity, p.1, line⟩
  let it : AggItem := ⟨msg, p.2, line⟩
  if st.any (fun g => g.1 = k) then
    st.map (fun g => if g.1 = k then (g.1, g.2 ++ [it]) else g)
  else st ++ [(k, [it])]

structure AggOut where
  etype : String
  severity : String
  message : String
  count : Option Nat
  line : Option Int
  deriving DecidableEq, Repr

def pyJoin (sep : String) : List String → String
  | [] => ""
  | [x] => x
  | x :: rest => x ++ sep ++ pyJoin sep rest

/-- `ErrorAggregator.get_aggregated_errors`: one output entry per group;
groups of size ≥ 2 get a merged message with up to three example
identifiers and a `count`. -/
def get_aggregated_errors (st : List (AggKey × List AggItem)) : List AggOut :=
  st.map (fun g =>
    match g.2 with
    | [e] => ⟨g.1.etype, g.1.severity, e.message, none, e.line⟩
    | errs =>
        let examples := (errs.take 3).filterMap (fun e => e.identifier)
        let msg0 := g.1.baseMsg ++ " (" ++ toString errs.length ++ " items)"
        let msg1 :=
          if examples ≠ [] then
            msg0 ++ "\nExamples: " ++ pyJoin ", " examples ++
              (if errs.length > 3 then "\n...and " ++ toString (errs.length - 3) ++ " more"
               else "")
          else msg0
        ⟨g.1.etype, g.1.severity, msg1, some errs.length, g.1.line⟩)

theorem add_error_agg_keys (st : List (AggKey × List AggItem))
    (t sv m : String) (l : Option Int) :
    ((add_error_agg st t sv m l).map Prod.fst = st.map Prod.fst ∨
     (add_error_agg st t sv m l).map Prod.fst =
       st.map Prod.fst ++ [⟨t, sv, (aggSplitMsg m).1, l⟩]) ∧
    ((st.map Prod.fst).Nodup → ((add_error_agg st t sv m l).map Prod.fst).Nodup) := by
  constructor
  · unfold add_error_agg
    by_cases hmem : st.any (fun g => g.1 = ⟨t, sv, (aggSplitMsg m).1, l⟩)
    · left
      simp only [hmem, if_true, List.map_map]
      apply List.map_congr_left
      intro g _
      by_cases hg : g.1 = (⟨t, sv, (aggSplitMsg m).1, l⟩ : AggKey) <;> simp [hg]
    · right
      simp [hmem]
  · intro hnd
    unfold add_error_agg
    by_cases hmem : st.any (fun g => g.1 = ⟨t, sv, (aggSplitMsg m).1, l⟩)
    · simp only [hmem, if_true, List.map_map]
      have heq : List.map (Prod.fst ∘ fun g =>
          if g.1 = (⟨t, sv, (aggSplitMsg m).1, l⟩ : AggKey) then
            (g.1, g.2 ++ [(⟨m, (aggSplitMsg m).2, l⟩ : AggItem)])
          else g) st = st.map Prod.fst := by
        apply List.map_congr_left
        intro g _
        by_cases hg : g.1 = (⟨t, sv, (aggSplitMsg m).1, l⟩ : AggKey) <;> simp [hg]
      rw [heq]
      exact hnd
    · rw [Bool.not_eq_true] at hmem
      simp only [hmem, Bool.false_eq_true, if_false, List.map_append, List.map_cons,
        List.map_nil]
      rw [List.nodup_append]
      refine ⟨hnd, List.nodup_singleton _, ?_⟩
      intro k hk
      simp only [List.mem_singleton]
      intro hkk
      subst hkk
      rw [List.any_eq_false] at hmem
      rw [List.mem_map] at hk
      obtain ⟨g, hg, hgk⟩ := hk
      exact absurd (by simp [hgk]) (hmem g hg)

/-- C5 (amended): the aggregator itself deduplicates — building the group
map from any sequence of `add_error` calls yields pairwise-distinct
`(type, severity, base_message, line_number)` keys, and
`get_aggregated_errors` emits exactly one entry per group, never more
entries than raw errors.  (`validate_document` does not route its report
through the aggregator; see the C5 counterexample.) -/
theorem C5_aggregator_unique_keys
    (inputs : List (String × String × String × Option Int)) :
    (((inputs.foldl (fun s e => add_error_agg s e.1 e.2.1 e.2.2.1 e.2.2.2) []).map
        Prod.fst).Nodup) ∧
    (get_aggregated_errors
        (inputs.foldl (fun s e => add_error_agg s e.1 e.2.1 e.2.2.1 e.2.2.2) [])).length =
      (inputs.foldl (fun s e => add_error_agg s e.1 e.2.1 e.2.2.1 e.2.2.2) []).length ∧
    (inputs.foldl (fun s e => add_error_agg s e.1 e.2.1 e.2.2.1 e.2.2.2) []).length ≤
      inputs.length := by
  have main : ∀ (inputs : List (String × String × String × Option Int))
      (st : List (AggKey × List AggItem)),
      (st.map Prod.fst).Nodup →
      ((inputs.foldl (fun s e => add_error_agg s e.1 e.2.1 e.2.2.1 e.2.2.2) st).map
          Prod.fst).Nodup ∧
      (inputs.foldl (fun s e => add_error_agg s e.1 e.2.1 e.2.2.1 e.2.2.2) st).length ≤
        st.length + inputs.length := by
    intro inputs
    induction inputs with
    | nil => intro st h; exact ⟨h, by simp⟩
    | cons e rest ih =>
        intro st h
        have hstep := add_error_agg_keys st e.1 e.2.1 e.2.2.1 e.2.2.2
        have hnd := hstep.2 h
        have hlen : (add_error_agg st e.1 e.2.1 e.2.2.1 e.2.2.2).length ≤ st.length + 1 := by
          have := hstep.1
          rcases this with hsame | happ
          · have := congrArg List.length hsame
            simp only [List.length_map] at this
            omega
          · have := congrArg List.length happ
            simp only [List.length_map, List.length_append, List.length_cons,
              List.length_nil] at this
            omega
        obtain ⟨h1, h2⟩ := ih (add_error_agg st e.1 e.2.1 e.2.2.1 e.2.2.2) hnd
        refine ⟨h1, ?_⟩
        simp only [List.foldl_cons] at *
        calc (rest.foldl (fun s e => add_error_agg s e.1 e.2.1 e.2.2.1 e.2.2.2)
                (add_error_agg st e.1 e.2.1 e.2.2.1 e.2.2.2)).length
            ≤ (add_error_agg st e.1 e.2.1 e.2.2.1 e.2.2.2).length + rest.length := h2
          _ ≤ st.length + 1 + rest.length := by omega
          _ = st.length + (rest.length + 1) := by omega
          _ = st.length + (e :: rest).length := by simp
  obtain ⟨h1, h2⟩ := main inputs [] (by simp)
  refine ⟨h1, ?_, ?_⟩
  · unfold get_aggregated_errors
    rw [List.length_map]
  · simpa using h2

/-! ## JSON values (`parser.py`, JSON path)

Values produced by a successful `json.loads`.  Only the constructors the
engine can encounter are modelled. -/

inductive Json where
  | null
  | jb (b : Bool)
  | jn (n : Int)
  | js (s : String)
  | jarr (xs : List Json)
  | jobj (kvs : List (String × Json))

mutual
def jsonBeq : Json → Json → Bool
  | .null, .null => true
  | .jb a, .jb b => a == b
  | .jn a, .jn b => a == b
  | .js a, .js b => a == b
  | .jarr xs, .jarr ys => jsonListBeq xs ys
  | .jobj xs, .jobj ys => jsonObjBeq xs ys
  | _, _ => false

def jsonListBeq : List Json → List Json → Bool
  | [], [] => true
  | x :: xs, y :: ys => jsonBeq x y && jsonListBeq xs ys
  | _, _ => false

def jsonObjBeq : List (String × Json) → List (String × Json) → Bool
  | [], [] => true
  | (k1, v1) :: xs, (k2, v2) :: ys => k1 == k2 && jsonBeq v1 v2 && jsonObjBeq xs ys
  | _, _ => false
end

/-! ## Event model (`parser.py` output shape / `event_validation.py` input)

An EPCIS event dictionary.  `Option` fields model key presence; list
fields that the validators only access through `.get(k, [])` still keep
the `Option` so that dict truthiness (`if not event`) is expressible.
ILMD values are modelled as strings (the only values the validators
consult), which makes the `isinstance(value, str)` branch of
`_validate_ilmd_data` vacuous. -/

structure EpcDetail where
  value : String
  line : Int
  deriving DecidableEq, Repr

/-- An entry of `bizTransactionList`: a dict (with an optional `type`
key) or any non-dict value, which `_validate_shipping_event` skips. -/
inductive PyTxnEntry where
  | tdict (ty : Option String)
  | nonDict
  deriving DecidableEq, Repr

/-- An entry of `extension.sourceList` / `extension.destinationList`. -/
inductive SDEntry where
  | sdict (ty : Option String)
  | nonDict
  deriving DecidableEq, Repr

/-- A `readPoint`/`bizLocation` value: a dict with an optional `id` key,
or a non-dict value. -/
inductive PyLoc where
  | ldict (idVal : Option String)
  | nonDict
  deriving DecidableEq, Repr

structure EventExt where
  sourceList : Option (List SDEntry) := none
  destinationList : Option (List SDEntry) := none
  deriving DecidableEq, Repr

structure Event where
  eventType : Option String := none
  action : Option String := none
  eventTime : Option String := none
  eventTimeZoneOffset : Option String := none
  epcList : Option (List String) := none
  childEPCs : Option (List String) := none
  inputEPCList : Option (List String) := none
  outputEPCList : Option (List String) := none
  epcListDetailed : Option (List EpcDetail) := none
  childEPCsDetailed : Option (List EpcDetail) := none
  parentID : Option String := none
  bizStep : Option String := none
  disposition : Option String := none
  readPoint : Option PyLoc := none
  bizLocation : Option PyLoc := none
  bizTransactionList : Option (List PyTxnEntry) := none
  extension : Option EventExt := none
  ilmd : Option (List (String × String)) := none
  recordTime : Option String := none
  lineNumber : Option Int := none
  deriving DecidableEq, Repr

/-- An event as appended to the parser's event list: either a dict in the
typed model, or any other value (the JSON path appends whatever
`eventList` holds).  Through `validate_document` the two behave
identically, because `validate_event` raises before reading any field. -/
inductive PyEvent where
  | evt (e : Event)
  | raw (j : Json)

def optStrTruthy : Option String → Bool
  | some s => s ≠ ""
  | none => false

def optListTruthy {α : Type} : Option (List α) → Bool
  | some l => !l.isEmpty
  | none => false

/-- Python truthiness of the event dict (`if not event`): some modelled
key is present. -/
def eventTruthy (ev : Event) : Bool :=
  ev.eventType.isSome || ev.action.isSome || ev.eventTime.isSome ||
  ev.eventTimeZoneOffset.isSome || ev.epcList.isSome || ev.childEPCs.isSome ||
  ev.inputEPCList.isSome || ev.outputEPCList.isSome || ev.epcListDetailed.isSome ||
  ev.childEPCsDetailed.isSome || ev.parentID.isSome || ev.bizStep.isSome ||
  ev.disposition.isSome || ev.readPoint.isSome || ev.bizLocation.isSome ||
  ev.bizTransactionList.isSome || ev.extension.isSome || ev.ilmd.isSome ||
  ev.recordTime.isSome || ev.lineNumber.isSome

/-! ## Event validation (`event_validation.py`) -/

def VALID_BIZ_STEPS : List String :=
  ["accepting", "arriving", "collecting", "commissioning", "consigning",
   "creating_class_instance", "cycle_counting", "decommissioning",
   "departing", "destroying", "dispensing", "encoding", "entering_exiting",
   "holding", "inspecting", "installing", "killing", "loading", "other",
   "packing", "picking", "receiving", "removing", "repackaging",
   "repairing", "replacing", "reserving", "retail_selling", "shipping",
   "staging_outbound", "stock_taking", "stocking", "storing", "transporting",
   "unloading", "void_shipping"]

def VALID_DISPOSITIONS : List String :=
  ["active", "container_closed", "damaged", "destroyed", "dispensed",
   "disposed", "encoded", "expired", "in_progress", "in_transit", "inactive",
   "no_pedigree_match", "non_sellable_other", "partially_dispensed", "recalled",
   "reserved", "retail_sold", "returned", "sellable_accessible",
   "sellable_not_accessible", "stolen", "unknown", "available", "unavailable"]

/-- `s.split(':')[-1]`. -/
def lastColonSeg (s : String) : String := (splitOnStr ":" s).getLastD ""

def REQUIRED_FIELDS (et : String) : Option (List String) :=
  if et = "ObjectEvent" then
    some ["eventTime", "eventTimeZoneOffset", "epcList", "action"]
  else if et = "AggregationEvent" then
    some ["eventTime", "eventTimeZoneOffset", "childEPCs", "action"]
  else if et = "TransactionEvent" then
    some ["eventTime", "eventTimeZoneOffset", "bizTransactionList", "epcList", "action"]
  else if et = "TransformationEvent" then
    some ["eventTime", "eventTimeZoneOffset", "inputEPCList", "outputEPCList"]
  else none

/-- Truthiness of `event.get(field)` for the field names that occur in
`REQUIRED_FIELDS`. -/
def getFieldTruthy (ev : Event) (f : String) : Bool :=
  if f = "eventTime" then optStrTruthy ev.eventTime
  else if f = "eventTimeZoneOffset" then optStrTruthy ev.eventTimeZoneOffset
  else if f = "epcList" then optListTruthy ev.epcList
  else if f = "childEPCs" then optListTruthy ev.childEPCs
  else if f = "inputEPCList" then optListTruthy ev.inputEPCList
  else if f = "outputEPCList" then optListTruthy ev.outputEPCList
  else if f = "bizTransactionList" then optListTruthy ev.bizTransactionList
  else if f = "action" then optStrTruthy ev.action
  else if f = "parentID" then optStrTruthy ev.parentID
  else false

/-- `EPCISEventValidator._validate_required_fields`.  (The `parentID`
special case is dead: `parentID` appears in no `REQUIRED_FIELDS` list; it
is kept for fidelity.) -/
def validateRequiredFields (ev : Event) : List VError :=
  match ev.eventType with
  | none => []
  | some et =>
      match REQUIRED_FIELDS et with
      | none => []
      | some fields =>
          fields.foldl (fun acc f =>
            if f = "parentID" ∧ et = "AggregationEvent" then
              if ev.action = some "ADD" ∧ ¬ getFieldTruthy ev f then
                acc ++ [⟨"field", "error", "parentID required for ADD AggregationEvent", none⟩]
              else acc
            else if ¬ getFieldTruthy ev f then
              acc ++ [⟨"field", "error",
                "Missing required field for " ++ et ++ ": " ++ f, none⟩]
            else acc) []

/-- `EPCISEventValidator._validate_event_time`. -/
def validateEventTimeErrs (ev : Event) : List VError :=
  (match ev.eventTime with
   | some t =>
       if t ≠ "" ∧ validEventTime t = false then
         [⟨"field", "error", "Invalid eventTime format: " ++ t, none⟩]
       else []
   | none => []) ++
  (match ev.eventTimeZoneOffset with
   | some tz =>
       if tz ≠ "" ∧ isValidTimezone tz = false then
         [⟨"field", "error", "Invalid eventTimeZoneOffset format: " ++ tz, none⟩]
       else []
   | none => [])

/-- Per-EPC check of `_validate_epcs`: format first, then company
authorization. -/
def epcErr (epc : String) (line : Option Int) (auth : List String) : List VError :=
  if ¬ validate_epc_format epc then
    [⟨"field", "error", "Invalid EPC format: " ++ epc, line⟩]
  else if ¬ validateCompanyPfx epc auth then
    [⟨"field", "error", "Unauthorized company prefix in EPC: " ++ epc, line⟩]
  else []

/-- `EPCISEventValidator._validate_epcs`: detailed lists first (with
per-EPC line numbers); the fallback loop over `epcList + childEPCs` is
skipped entirely when either detailed key is present. -/
def validateEpcs (ev : Event) (auth : List String) : List VError :=
  (match ev.epcListDetailed with
   | some entries => entries.foldl (fun acc e => acc ++ epcErr e.value (some e.line) auth) []
   | none => []) ++
  (match ev.childEPCsDetailed with
   | some entries => entries.foldl (fun acc e => acc ++ epcErr e.value (some e.line) auth) []
   | none => []) ++
  (if ev.epcListDetailed.isSome || ev.childEPCsDetailed.isSome then []
   else ((ev.epcList.getD []) ++ (ev.childEPCs.getD [])).foldl
     (fun acc epc => acc ++ epcErr epc (some (ev.lineNumber.getD 0)) auth) [])

/-- `EPCISEventValidator._validate_biz_step`. -/
def validateBizStep (ev : Event) : List VError :=
  let bs := ev.bizStep.getD ""
  if bs ≠ "" then
    let step := lastColonSeg bs
    if step ∈ VALID_BIZ_STEPS then []
    else [⟨"field", "error", "Invalid business step: " ++ step, none⟩]
  else []

/-- `EPCISEventValidator._validate_disposition`. -/
def validateDisposition (ev : Event) : List VError :=
  let d := ev.disposition.getD ""
  if d ≠ "" then
    let disp := lastColonSeg d
    if disp ∈ VALID_DISPOSITIONS then []
    else [⟨"field", "error", "Invalid disposition: " ++ disp, none⟩]
  else []

def locErrs (name : String) : PyLoc → List VError
  | .nonDict =>
      [⟨"format", "error",
        "Invalid " ++ name ++ " format: must be object with \x27id\x27 field", none⟩]
  | .ldict none =>
      [⟨"format", "error",
        "Invalid " ++ name ++ " format: must be object with \x27id\x27 field", none⟩]
  | .ldict (some lid) =>
      if strStartsWith lid "urn:epc:id:sgln:" then []
      else [⟨"format", "error",
        "Invalid " ++ name ++ " identifier format: must be SGLN", none⟩]

/-- `EPCISEventValidator._validate_location_identifiers`. -/
def validateLocationIdentifiers (ev : Event) : List VError :=
  (match ev.readPoint with
   | some loc => locErrs "readPoint" loc
   | none => []) ++
  (match ev.bizLocation with
   | some loc => locErrs "bizLocation" loc
   | none => [])

def ilmdGet (m : List (String × String)) (k : String) : Option String :=
  (m.find? (fun p => p.1 = k)).map Prod.snd

/-- One field of `_validate_ilmd_data`: `field_path` is the
`cbvmda:`-prefixed key except for `lotNumber`, where it is the bare key
again; `full_value = ilmd.get(field_path, ilmd.get(field))`, so the
prefixed key takes precedence and `lotNumber` never consults
`cbvmda:lotNumber`. -/
def ilmdFieldErrs (m : List (String × String)) (field : String) : List VError :=
  let value := ilmdGet m field
  let fieldPath := if field ≠ "lotNumber" then "cbvmda:" ++ field else field
  let fullValue :=
    match ilmdGet m fieldPath with
    | some v => some v
    | none => value
  (if ¬ optStrTruthy fullValue then
    [⟨"field", "error", "Missing required ILMD field: " ++ field, none⟩]
   else []) ++
  (if strEndsWith field "Date" ∧ optStrTruthy fullValue then
    (match fullValue with
     | some v =>
         if ¬ validate_date_format v then
           [⟨"field", "error",
             "Invalid date format in ILMD field " ++ field ++ ": " ++ v, none⟩]
         else []
     | none => [])
   else [])

/-- `EPCISEventValidator._validate_ilmd_data`. -/
def validateIlmdData (ev : Event) : List VError :=
  if strEndsWith (ev.bizStep.getD "") "commissioning" then
    match ev.ilmd with
    | some m => ilmdFieldErrs m "lotNumber" ++ ilmdFieldErrs m "itemExpirationDate"
    | none => []
  else []

/-- `EPCISEventValidator._validate_aggregation_event`. -/
def validateAggregationEvent (ev : Event) : List VError :=
  if ev.action = some "ADD" then
    if ¬ optStrTruthy ev.parentID ∧ (ev.childEPCs.getD []) ≠ [] then
      [⟨"field", "error", "parentID required for ADD AggregationEvent with children", none⟩]
    else []
  else []

def REQUIRED_TXN_TYPES_SHIPPING : List String :=
  ["urn:epcglobal:cbv:btt:po", "urn:epcglobal:cbv:btt:desadv"]

/-- `{bt.get('type') for bt in biz_transactions if isinstance(bt, dict)}`
as a list queried for membership. -/
def txnFoundTypes (l : List PyTxnEntry) : List (Option String) :=
  l.foldl (fun acc bt =>
    match bt with
    | .tdict ty => acc ++ [ty]
    | .nonDict => acc) []

/-- `{item.get('type', '').split(':')[-1] for item in type_list if
isinstance(item, dict)}` as a list queried for membership. -/
def sdFoundTypes (l : List SDEntry) : List String :=
  l.foldl (fun acc it =>
    match it with
    | .sdict ty => acc ++ [lastColonSeg (ty.getD "")]
    | .nonDict => acc) []

/-- `EPCISEventValidator._validate_shipping_event`: required transaction
types, then `sourceList`, then `destinationList` (the iteration order of
`REQUIRED_SHIPPING_FIELDS`). -/
def validateShippingEvent (ev : Event) : List VError :=
  let found := txnFoundTypes (ev.bizTransactionList.getD [])
  (REQUIRED_TXN_TYPES_SHIPPING.foldl (fun acc rt =>
    if some rt ∈ found then acc
    else acc ++ [⟨"field", "error",
      "Missing required transaction type in shipping event: " ++ rt, none⟩]) []) ++
  (let ext := ev.extension.getD {}
   (["owning_party", "location"].foldl (fun acc rt =>
     if rt ∈ sdFoundTypes (ext.sourceList.getD []) then acc
     else acc ++ [⟨"field", "error", "Missing required sourceList type: " ++ rt, none⟩]) []) ++
   (["owning_party", "location"].foldl (fun acc rt =>
     if rt ∈ sdFoundTypes (ext.destinationList.getD []) then acc
     else acc ++ [⟨"field", "error", "Missing required destinationList type: " ++ rt, none⟩]) []))

/-- The single-argument call `validate_dates_order(event)` at
`event_validation.py:65` (and `sequence_validation.py:123`):
`utils.validate_dates_order` takes two positional string arguments, so
the call raises `TypeError` before the callee body runs. -/
def validateDatesOrderOneArg (_e : PyEvent) : Except String Unit :=
  .error "validate_dates_order() missing 1 required positional argument: \x27later_date\x27"

/-- `EPCISEventValidator.validate_event`.  The body after the
`validate_dates_order(event)` call is kept in source order; it is
unreachable, because that call always raises (see
`validateDatesOrderOneArg`). -/
def validate_event (pe : PyEvent) (auth : List String) : Except String (List VError) := do
  let _ ← validateDatesOrderOneArg pe
  match pe with
  | .raw j =>
      -- a non-dict event would fail its first attribute access
      let _ := j
      throw "\x27object\x27 has no attribute \x27get\x27"
  | .evt ev =>
      if ¬ eventTruthy ev then
        return [⟨"structure", "error", "Empty event found", none⟩]
      else
        let errors := validateRequiredFields ev
        let errors := errors ++ validateEventTimeErrs ev
        let errors := errors ++ validateEpcs ev auth
        let errors := errors ++ validateBizStep ev
        let errors := errors ++ validateDisposition ev
        let errors := errors ++ validateLocationIdentifiers ev
        let errors := errors ++ validateIlmdData ev
        let errors := errors ++
          (if ev.eventType = some "AggregationEvent" then validateAggregationEvent ev
           else if strEndsWith (ev.bizStep.getD "") "shipping" then validateShippingEvent ev
           else [])
        return errors

/-- Python `s.replace(pat, rep)` for a nonempty `pat` (split and
rejoin). -/
def replaceStr (s pat rep : String) : String := pyJoin rep (splitOnStr pat s)

/-! ## Sequence validation (`sequence_validation.py`) -/

/-- A parsed `datetime` (always at offset +00:00 in the engine's inputs,
see `fromisoZ`). -/
structure Instant where
  y : Nat
  mo : Nat
  d : Nat
  h : Nat
  mi : Nat
  s : Nat
  us : Nat
  deriving DecidableEq, Repr

/-- Monotone encoding of an instant, for comparisons. -/
def Instant.key (t : Instant) : Nat :=
  (((((t.y * 13 + t.mo) * 32 + t.d) * 24 + t.h) * 60 + t.mi) * 60 + t.s) * 1000000 + t.us

def padTo (w : Nat) (n : Nat) : String :=
  let s := toString n
  if s.length < w then String.mk (List.replicate (w - s.length) '0') ++ s else s

/-- `datetime.isoformat()` of an aware instant at +00:00 (microseconds
printed only when nonzero). -/
def Instant.isoformat (t : Instant) : String :=
  padTo 4 t.y ++ "-" ++ padTo 2 t.mo ++ "-" ++ padTo 2 t.d ++ "T" ++
  padTo 2 t.h ++ ":" ++ padTo 2 t.mi ++ ":" ++ padTo 2 t.s ++
  (if t.us ≠ 0 then "." ++ padTo 6 t.us else "") ++ "+00:00"

def exactDigits (w : Nat) (s : String) : Bool :=
  s.length = w && s.data.all Char.isDigit

/-- `datetime.fromisoformat` restricted to the shapes the engine feeds it
after `eventTime.replace('Z', '+00:00')`:
`YYYY-MM-DDTHH:MM:SS[.f{1,6}]+00:00` with zero-padded two-digit fields.
Other CPython-accepted shapes are outside the modelled subset and map to
the ValueError branch; no claim depends on them. -/
def fromisoZ (s : String) : Except String Instant :=
  let fail : Except String Instant :=
    .error ("Invalid isoformat string: \x27" ++ s ++ "\x27")
  match splitOnStr "+" s with
  | [main, off] =>
      if off ≠ "00:00" then fail
      else
        match splitOnStr "T" main with
        | [ds, ts] =>
            match splitOnStr "-" ds, splitOnStr ":" ts with
            | [ys, ms, dds], [hs, mis, ssf] =>
                match splitOnStr "." ssf with
                | [sec] =>
                    if exactDigits 4 ys && exactDigits 2 ms && exactDigits 2 dds &&
                       exactDigits 2 hs && exactDigits 2 mis && exactDigits 2 sec then
                      let y := strToNat ys; let mo := strToNat ms; let d := strToNat dds
                      let h := strToNat hs; let mi := strToNat mis; let sc := strToNat sec
                      if 1 ≤ y ∧ 1 ≤ mo ∧ mo ≤ 12 ∧ 1 ≤ d ∧ d ≤ daysInMonth y mo ∧
                         h ≤ 23 ∧ mi ≤ 59 ∧ sc ≤ 59 then
                        .ok ⟨y, mo, d, h, mi, sc, 0⟩
                      else fail
                    else fail
                | [sec, frac] =>
                    if exactDigits 4 ys && exactDigits 2 ms && exactDigits 2 dds &&
                       exactDigits 2 hs && exactDigits 2 mis && exactDigits 2 sec &&
                       digitRun1to 6 frac then
                      let y := strToNat ys; let mo := strToNat ms; let d := strToNat dds
                      let h := strToNat hs; let mi := strToNat mis; let sc := strToNat sec
                      let us := strToNat frac * 10 ^ (6 - frac.length)
                      if 1 ≤ y ∧ 1 ≤ mo ∧ mo ≤ 12 ∧ 1 ≤ d ∧ d ≤ daysInMonth y mo ∧
                         h ≤ 23 ∧ mi ≤ 59 ∧ sc ≤ 59 then
                        .ok ⟨y, mo, d, h, mi, sc, us⟩
                      else fail
                    else fail
                | _ => fail
            | _, _ => fail
        | _ => fail
  | _ => fail

structure SeqState where
  commissionedSGTIN : List String := []
  commissionedSSCC : List String := []
  aggregatedItems : List (String × Option String) := []
  eventTimes : List (String × List (String × Instant)) := []
  deriving DecidableEq, Repr

/-- Insertion-ordered dict lookup. -/
def alGet {β : Type} (l : List (String × β)) (k : String) : Option β :=
  (l.find? (fun p => p.1 = k)).map Prod.snd

/-- Insertion-ordered dict update (existing keys keep their position, new
keys append). -/
def alSet {β : Type} (l : List (String × β)) (k : String) (v : β) : List (String × β) :=
  if (l.find? (fun p => p.1 = k)).isSome then
    l.map (fun p => if p.1 = k then (k, v) else p)
  else l ++ [(k, v)]

def alRemove {β : Type} (l : List (String × β)) (k : String) : List (String × β) :=
  l.filter (fun p => ¬ p.1 = k)

def setAdd (l : List String) (x : String) : List String :=
  if x ∈ l then l else l ++ [x]

def jsonTypeName : Json → String
  | .null => "NoneType"
  | .jb _ => "bool"
  | .jn _ => "int"
  | .js _ => "str"
  | .jarr _ => "list"
  | .jobj _ => "dict"

/-- The `AttributeError` raised by `event.get(...)` on a non-dict event.
(For a dict-shaped JSON event, which `PyEvent.raw` also covers, this point
is unreachable through `validate_document`: the event-validation loop
raises first.) -/
def rawEventExn (j : Json) : String :=
  "\x27" ++ jsonTypeName j ++ "\x27 object has no attribute \x27get\x27"

/-- `EPCISSequenceValidator._process_commissioning`. -/
def processCommissioning (st : SeqState) (ev : Event) : SeqState :=
  (ev.epcList.getD []).foldl (fun st epc =>
    if strStartsWith epc "urn:epc:id:sgtin:" then
      { st with commissionedSGTIN := setAdd st.commissionedSGTIN epc }
    else if strStartsWith epc "urn:epc:id:sscc:" then
      { st with commissionedSSCC := setAdd st.commissionedSSCC epc }
    else st) st

def EVENT_SEQUENCE : List String :=
  ["commissioning", "packing", "shipping", "receiving",
   "storing", "dispensing", "decommissioning", "returns"]

def stepOrd (s : String) : Int := ((EVENT_SEQUENCE.indexOf s : Nat) : Int)

/-- `EVENT_SEQUENCE[i]` with Python index semantics (negative indices wrap;
only non-negative indices are reachable in the closure pass). -/
def seqStepAt (i : Int) : String :=
  if i < 0 then EVENT_SEQUENCE.getD (EVENT_SEQUENCE.length - i.natAbs) ""
  else EVENT_SEQUENCE.getD i.toNat ""

def SEQ_RULE_predecessors (step : String) : List String :=
  if step = "commissioning" then []
  else if step = "packing" then ["commissioning"]
  else if step = "shipping" then ["commissioning", "packing"]
  else if step = "receiving" then ["shipping"]
  else if step = "storing" then ["receiving", "commissioning"]
  else if step = "dispensing" then ["receiving", "storing"]
  else if step = "decommissioning" then ["receiving", "storing"]
  else if step = "returns" then ["dispensing", "storing"]
  else []

def SEQ_RULE_dispositions (step : String) : List String :=
  if step = "commissioning" then ["active", "in_progress"]
  else if step = "packing" then ["in_progress", "active"]
  else if step = "shipping" then ["in_transit"]
  else if step = "receiving" then ["in_progress", "active"]
  else if step = "storing" then ["active", "sellable_accessible"]
  else if step = "dispensing" then ["dispensed", "partially_dispensed"]
  else if step = "decommissioning" then ["destroyed", "expired", "recalled"]
  else if step = "returns" then ["returned"]
  else []

/-- `biz_step in self.SEQUENCE_RULES`. -/
def stepHasRule (step : String) : Bool := step ∈ EVENT_SEQUENCE

def pyListRepr (l : List String) : String :=
  "[" ++ pyJoin ", " (l.map (fun s => "\x27" ++ s ++ "\x27")) ++ "]"

/-- `max(prev_times.values())`: Python `max` keeps the first maximum. -/
def maxInstant (l : List (String × Instant)) : Option Instant :=
  match l with
  | [] => none
  | (_, t) :: rest => some (rest.foldl (fun m p => if p.2.key > m.key then p.2 else m) t)

/-- The per-EPC body of `_validate_event_sequence`'s loop. -/
def perEpcSeq (bizStep : String) (eventDt : Instant) (dispo : Option String)
    (acc : SeqState × List (String × List (String × Instant)) × List VError)
    (epc : String) :
    SeqState × List (String × List (String × Instant)) × List VError :=
  let st := acc.1
  let seqMap := acc.2.1
  let errs := acc.2.2
  let prevTimes := (alGet st.eventTimes epc).getD []
  let errs := errs ++
    (match maxInstant prevTimes with
     | some maxPrev =>
         if eventDt.key < maxPrev.key then
           [⟨"sequence", "error", "Event time " ++ eventDt.isoformat ++ " for " ++ bizStep ++
             " is before previous event time " ++ maxPrev.isoformat ++ " for " ++ epc, none⟩]
         else []
     | none => [])
  let errs := errs ++
    (if strStartsWith epc "urn:epc:id:sgtin:" then
       if epc ∈ st.commissionedSGTIN then []
       else [⟨"sequence", "error", "SGTIN " ++ epc ++ " not commissioned before " ++ bizStep, none⟩]
     else if strStartsWith epc "urn:epc:id:sscc:" then
       if epc ∈ st.commissionedSSCC then []
       else [⟨"sequence", "error", "SSCC " ++ epc ++ " not commissioned before " ++ bizStep, none⟩]
     else [])
  if stepHasRule bizStep then
    let validPreds := SEQ_RULE_predecessors bizStep
    let errs := errs ++
      (if validPreds ≠ [] then
         let preds := ((alGet seqMap epc).getD []).map Prod.fst
         if validPreds.any (fun p => p ∈ preds) then []
         else [⟨"sequence", "error", "EPC " ++ epc ++ " has " ++ bizStep ++
           " event without required predecessor(s): " ++ pyListRepr validPreds, none⟩]
       else [])
    let seqMap := alSet seqMap epc (((alGet seqMap epc).getD []) ++ [(bizStep, eventDt)])
    let newTimes := alSet ((alGet st.eventTimes epc).getD []) bizStep eventDt
    let st := { st with eventTimes := alSet st.eventTimes epc newTimes }
    let errs := errs ++
      (match dispo with
       | some disp =>
           let d := lastColonSeg disp
           if d ∈ SEQ_RULE_dispositions bizStep then []
           else [⟨"sequence", "error",
             "Invalid disposition " ++ d ++ " for " ++ bizStep ++ " event", none⟩]
       | none => [])
    (st, seqMap, errs)
  else (st, seqMap, errs)

/-- `EPCISSequenceValidator._validate_event_sequence`.  The surrounding
`try` catches only `ValueError` (from `fromisoformat`); a missing
`eventTime` key (KeyError) and the single-argument
`validate_dates_order(event)` call guarded by `recordTime` (TypeError)
escape it. -/
def validateEventSequenceStep (st : SeqState)
    (seqMap : List (String × List (String × Instant))) (pe : PyEvent) :
    SeqState × List (String × List (String × Instant)) × List VError × Option String :=
  match pe with
  | .raw j => (st, seqMap, [], some (rawEventExn j))
  | .evt ev =>
      match ev.eventTime with
      | none => (st, seqMap, [], some "\x27eventTime\x27")
      | some ts =>
          match fromisoZ (replaceStr ts "Z" "+00:00") with
          | .error m =>
              (st, seqMap,
               [⟨"sequence", "error", "Error processing event sequence: " ++ m, none⟩], none)
          | .ok eventDt =>
              let bizStep := lastColonSeg (ev.bizStep.getD "")
              let epcs := (ev.epcList.getD []) ++ (ev.childEPCs.getD [])
              if ev.recordTime.isSome then
                (st, seqMap, [],
                 some "validate_dates_order() missing 1 required positional argument: \x27later_date\x27")
              else
                let out := epcs.foldl (perEpcSeq bizStep eventDt ev.disposition) (st, seqMap, [])
                (out.1, out.2.1, out.2.2, none)

/-- Stable ascending sort by instant (`list.sort(key=lambda x: x[1])`). -/
def insertByKey (x : String × Instant) : List (String × Instant) → List (String × Instant)
  | [] => [x]
  | y :: ys => if y.2.key ≤ x.2.key then y :: insertByKey x ys else x :: y :: ys

def sortSteps (l : List (String × Instant)) : List (String × Instant) :=
  l.foldl (fun acc x => insertByKey x acc) []

/-- The out-of-order scan of `_validate_complete_sequence`: walk the
sorted steps with the running `current_step_idx` (initially -1); a step in
`EVENT_SEQUENCE` is flagged when its ordinal is ≤ the running index, and
then becomes the running index. -/
def closureScan (epc : String) : Int → List (String × Instant) → List VError
  | _, [] => []
  | cur, (step, _) :: rest =>
      if step ∈ EVENT_SEQUENCE then
        let idx := stepOrd step
        (if idx ≤ cur then
           [⟨"sequence", "error", "Out of order event for " ++ epc ++ ": " ++ step ++
             " after " ++ seqStepAt cur, none⟩]
         else []) ++ closureScan epc idx rest
      else closureScan epc cur rest

/-- `EPCISSequenceValidator._validate_complete_sequence`. -/
def validateCompleteSequence
    (seqMap : List (String × List (String × Instant))) : List VError :=
  seqMap.foldl (fun acc g =>
    let sorted := sortSteps g.2
    (acc ++ closureScan g.1 (-1) sorted) ++
    (match sorted.getLast? with
     | some (lastStep, _) =>
         if lastStep ∈ ["dispensing", "decommissioning", "returns"] then []
         else [⟨"sequence", "warning",
           "Incomplete sequence for " ++ g.1 ++ ": ends with " ++ lastStep, none⟩]
     | none => [])) []

/-- Pass 1 of `validate_sequence` (commissioning sweep); `event.get` on a
non-dict event raises. -/
def seqPass1 : SeqState → List PyEvent → SeqState × Option String
  | st, [] => (st, none)
  | st, .raw j :: _ => (st, some (rawEventExn j))
  | st, .evt ev :: rest =>
      seqPass1
        (if strEndsWith (ev.bizStep.getD "") "commissioning" then processCommissioning st ev
         else st) rest

/-- Pass 2 of `validate_sequence`. -/
def seqPass2 : SeqState → List (String × List (String × Instant)) → List VError →
    List PyEvent →
    SeqState × List (String × List (String × Instant)) × List VError × Option String
  | st, sm, errs, [] => (st, sm, errs, none)
  | st, sm, errs, pe :: rest =>
      match validateEventSequenceStep st sm pe with
      | (st1, sm1, errs1, some e) => (st1, sm1, errs ++ errs1, some e)
      | (st1, sm1, errs1, none) => seqPass2 st1 sm1 (errs ++ errs1) rest

/-- `EPCISSequenceValidator.validate_sequence`.  The state parameter is
the instance state (`self`), which the passes mutate; an escaping
exception leaves the mutations made so far in place. -/
def validate_sequence (st : SeqState) (events : List PyEvent) :
    SeqState × Except String (List VError) :=
  match seqPass1 st events with
  | (st1, some e) => (st1, .error e)
  | (st1, none) =>
      match seqPass2 st1 [] [] events with
      | (st2, _, _, some e) => (st2, .error e)
      | (st2, sm, errs, none) => (st2, .ok (errs ++ validateCompleteSequence sm))

def optParentStr : Option String → String
  | some s => s
  | none => "None"

/-- Per-event body of `validate_packaging_hierarchy`. -/
def hierStep (st : SeqState) (pe : PyEvent) : SeqState × List VError × Option String :=
  match pe with
  | .raw j => (st, [], some (rawEventExn j))
  | .evt ev =>
      if ev.eventType = some "AggregationEvent" then
        let parentId := ev.parentID
        let children := ev.childEPCs.getD []
        if ev.action = some "ADD" then
          let out := children.foldl (fun (acc : SeqState × List VError) child =>
            match alGet acc.1.aggregatedItems child with
            | some existing =>
                (acc.1, acc.2 ++ [⟨"hierarchy", "error",
                  "Item " ++ child ++ " already aggregated to " ++ optParentStr existing, none⟩])
            | none =>
                ({ acc.1 with aggregatedItems := acc.1.aggregatedItems ++ [(child, parentId)] },
                 acc.2)) (st, [])
          (out.1, out.2, none)
        else if ev.action = some "DELETE" then
          let out := children.foldl (fun (acc : SeqState × List VError) child =>
            match alGet acc.1.aggregatedItems child with
            | some existing =>
                let errs2 :=
                  if existing ≠ parentId then
                    acc.2 ++ [⟨"hierarchy", "error",
                      "Cannot disaggregate " ++ child ++ " from " ++ optParentStr parentId ++
                      ", was aggregated to " ++ optParentStr existing, none⟩]
                  else acc.2
                ({ acc.1 with aggregatedItems := alRemove acc.1.aggregatedItems child }, errs2)
            | none =>
                (acc.1, acc.2 ++ [⟨"hierarchy", "error",
                  "Cannot disaggregate " ++ child ++ ", was not previously aggregated", none⟩]))
            (st, [])
          (out.1, out.2, none)
        else (st, [], none)
      else (st, [], none)

/-- `EPCISSequenceValidator.validate_packaging_hierarchy`. -/
def validate_packaging_hierarchy : SeqState → List VError → List PyEvent →
    SeqState × Except String (List VError)
  | st, errs, [] => (st, .ok errs)
  | st, errs, pe :: rest =>
      match hierStep st pe with
      | (st1, _, some e) => (st1, .error e)
      | (st1, errs1, none) => validate_packaging_hierarchy st1 (errs ++ errs1) rest

/-! ## Orchestration (`main_validator.py`) -/

/-- A value of the report dictionary. -/
inductive RVal where
  | b (v : Bool)
  | n (v : Nat)
  | strs (v : List String)
  | hdr (v : Option Json)
  | errs (v : List VError)

/-- The report dictionary, keys in insertion order. -/
abbrev Report := List (String × RVal)

/-- The tuple returned by `EPCISParser.parse_document` (which never lets
an exception escape: all its failure paths append parse errors). -/
structure ParseResult where
  header : Option Json := none
  events : List PyEvent := []
  companies : List String := []
  parseErrors : List VError := []

/-- The event-validation loop of `validate_document`. -/
def eventsLoop : List VError → List PyEvent → List String → Except String (List VError)
  | acc, [], _ => .ok acc
  | acc, pe :: rest, companies =>
      match validate_event pe companies with
      | .error e => .error e
      | .ok es => eventsLoop (acc ++ es) rest companies

/-- The `try` body of `validate_document` from the parse result on. -/
def tryValidate (st : SeqState) (pr : ParseResult) :
    SeqState × Except String (List VError) :=
  let errors := pr.parseErrors
  if errors.isEmpty then
    match eventsLoop [] pr.events pr.companies with
    | .error e => (st, .error e)
    | .ok evErrs =>
        match validate_sequence st pr.events with
        | (st1, .error e) => (st1, .error e)
        | (st1, .ok seqErrs) =>
            match validate_packaging_hierarchy st1 [] pr.events with
            | (st2, .error e) => (st2, .error e)
            | (st2, .ok hierErrs) => (st2, .ok (errors ++ evErrs ++ seqErrs ++ hierErrs))
  else (st, .ok errors)

/-- `EPCISValidator.validate_document`, from the parse result on.
Returns the validator state (`self`, threaded because the sequence
validator is instance state created once in `__init__`) and the report
dictionary. -/
def validate_document (st : SeqState) (pr : ParseResult) : SeqState × Report :=
  match tryValidate st pr with
  | (st1, .ok errors) =>
      let isValid := (errors.filter (fun e => e.severity = "error")).length = 0
      (st1, [("valid", .b isValid), ("header", .hdr pr.header),
             ("eventCount", .n pr.events.length), ("companies", .strs pr.companies),
             ("errors", .errs errors)])
  | (st1, .error e) =>
      (st1, [("valid", .b false),
             ("errors", .errs [⟨"system", "error",
               "System error during validation: " ++ e, none⟩])])

/-- Fresh validator state (`EPCISSequenceValidator.__init__`). -/
def initSeqState : SeqState := {}

def reportKeys (r : Report) : List String := r.map Prod.fst

def reportValid (r : Report) : Option Bool :=
  match (r.find? (fun p => p.1 = "valid")).map Prod.snd with
  | some (.b v) => some v
  | _ => none

def reportErrors (r : Report) : List VError :=
  match (r.find? (fun p => p.1 = "errors")).map Prod.snd with
  | some (.errs l) => l
  | _ => []

/-! ## JSON parsing (`parser.py`: `_parse_json` and `parse_document`) -/

def hasSubCh (n : List Char) : List Char → Bool
  | [] => (stripLit n []).isSome
  | c :: rest => (stripLit n (c :: rest)).isSome || hasSubCh n rest

/-- Python `needle in hay` on strings. -/
def strHasSub (needle hay : String) : Bool := hasSubCh needle.data hay.data

/-- `str(x)`; exact for the scalar values the engine meets (container
reprs are outside the modelled subset and abbreviated). -/
def pyStrOf : Json → String
  | .null => "None"
  | .jb true => "True"
  | .jb false => "False"
  | .jn n => toString n
  | .js s => s
  | .jarr _ => "[...]"
  | .jobj _ => "\x7b...\x7d"

def jsonTruthy : Json → Bool
  | .null => false
  | .jb b => b
  | .jn n => n ≠ 0
  | .js s => s ≠ ""
  | .jarr xs => !xs.isEmpty
  | .jobj kvs => !kvs.isEmpty

/-- Python `k in data`: TypeError on non-container values. -/
def pyHasKey (data : Json) (k : String) : Except String Bool :=
  match data with
  | .jobj kvs => .ok (kvs.any (fun kv => kv.1 = k))
  | .jarr xs => .ok (xs.any (fun x => jsonBeq x (.js k)))
  | .js s => .ok (strHasSub k s)
  | other => .error ("argument of type \x27" ++ jsonTypeName other ++ "\x27 is not iterable")

/-- `data.get(k, dflt)`: AttributeError on non-dicts. -/
def pyGet (data : Json) (k : String) (dflt : Json) : Except String Json :=
  match data with
  | .jobj kvs => .ok ((alGet kvs k).getD dflt)
  | other => .error ("\x27" ++ jsonTypeName other ++ "\x27 object has no attribute \x27get\x27")

/-- `data.get(k)` with the `None` default. -/
def pyGetOpt (data : Json) (k : String) : Except String (Option Json) :=
  match data with
  | .jobj kvs => .ok (alGet kvs k)
  | other => .error ("\x27" ++ jsonTypeName other ++ "\x27 object has no attribute \x27get\x27")

/-- `for x in v`: the sequences iteration can produce. -/
def pyIter : Json → Except String (List Json)
  | .jarr xs => .ok xs
  | .js s => .ok (s.data.map (fun c => .js (String.mk [c])))
  | .jobj kvs => .ok (kvs.map (fun kv => .js kv.1))
  | other => .error ("\x27" ++ jsonTypeName other ++ "\x27 object is not iterable")

/-- The condition `'@context' not in data or not any('epcis' in
str(ctx).lower() for ctx in data.get('@context', []))`, with Python's
short-circuiting. -/
def contextMissing (data : Json) : Except String Bool := do
  let hasIt ← pyHasKey data "@context"
  if !hasIt then
    return true
  else
    let ctxVal ← pyGet data "@context" (.jarr [])
    let elems ← pyIter ctxVal
    return ! elems.any (fun c => strHasSub "epcis" (toLowerStr (pyStrOf c)))

/-- `a + b` for the epc-list concatenation. -/
def pyConcat : Json → Json → Except String (List Json)
  | .jarr xs, .jarr ys => .ok (xs ++ ys)
  | .js a, .js b => .ok ((a ++ b).data.map (fun c => .js (String.mk [c])))
  | .jarr _, other => .error ("can only concatenate list (not \"" ++ jsonTypeName other ++ "\") to list")
  | .js _, other => .error ("can only concatenate str (not \"" ++ jsonTypeName other ++ "\") to str")
  | other, _ => .error ("unsupported operand type(s) for +: \x27" ++ jsonTypeName other ++ "\x27")

/-- `epc.split(':')[4].split('.')[0] if len(epc.split(':')) > 4 else None`. -/
def companyOfEpc : Json → Except String (Option String)
  | .js s =>
      let parts := splitOnStr ":" s
      if parts.length > 4 then .ok (some (((splitOnStr "." (parts.getD 4 "")).headD "")))
      else .ok none
  | other => .error ("\x27" ++ jsonTypeName other ++ "\x27 object has no attribute \x27split\x27")

/-- The company sweep of one JSON event (run after the event was already
appended): companies found before a raise are kept; the first raise is
reported. -/
def jsonEventCompanies (item : Json) : List String × Option String :=
  match pyGet item "epcList" (.jarr []) with
  | .error e => ([], some e)
  | .ok el =>
  match pyGet item "childEPCs" (.jarr []) with
  | .error e => ([], some e)
  | .ok cl =>
  match pyConcat el cl with
  | .error e => ([], some e)
  | .ok epcs =>
      epcs.foldl (fun (acc : List String × Option String) epc =>
        match acc.2 with
        | some _ => acc
        | none =>
            match companyOfEpc epc with
            | .error e => (acc.1, some e)
            | .ok (some c) => (if c ≠ "" then acc.1 ++ [c] else acc.1, none)
            | .ok none => acc) ([], none)

/-- `EPCISParser._parse_json` after a successful `json.loads`.  Raised
exceptions hit the generic `except` and become a single
`JSON parsing error` format error, keeping whatever was accumulated
before the raise; per-event raises hit the inner `except` and become
`Error parsing event` format errors without aborting the loop. -/
def parse_json (data : Json) :
    Option Json × List PyEvent × List String × List VError :=
  match contextMissing data with
  | .error e => (none, [], [], [⟨"format", "error", "JSON parsing error: " ++ e, none⟩])
  | .ok missing =>
      let errs0 : List VError :=
        if missing then [⟨"structure", "error", "Missing EPCIS context in JSON", none⟩]
        else []
      match pyGetOpt data "header" with
      | .error e => (none, [], [],
          errs0 ++ [⟨"format", "error", "JSON parsing error: " ++ e, none⟩])
      | .ok header =>
          match pyGet data "eventList" (.jarr []) with
          | .error e => (header, [], [],
              errs0 ++ [⟨"format", "error", "JSON parsing error: " ++ e, none⟩])
          | .ok evl =>
              match pyIter evl with
              | .error e => (header, [], [],
                  errs0 ++ [⟨"format", "error", "JSON parsing error: " ++ e, none⟩])
              | .ok items =>
                  let out := items.foldl
                    (fun (acc : List PyEvent × List String × List VError) item =>
                      let events := acc.1 ++ [PyEvent.raw item]
                      let sweep := jsonEventCompanies item
                      let companies := sweep.1.foldl setAdd acc.2.1
                      match sweep.2 with
                      | none => (events, companies, acc.2.2)
                      | some e => (events, companies, acc.2.2 ++
                          [⟨"format", "error", "Error parsing event: " ++ e, none⟩]))
                    ([], [], errs0)
                  (header, out.1, out.2.1, out.2.2)

/-- The header post-processing of `parse_document` (instance-identifier
extraction). -/
def headerPost (h : Json) : Except String Json := do
  let docId ← pyGet h "DocumentIdentification" (.jobj [])
  let instId ← pyGetOpt docId "InstanceIdentifier"
  match instId with
  | some v =>
      if jsonTruthy v then
        match h with
        | .jobj kvs => return .jobj (alSet kvs "instance_identifier" v)
        | _ => return h
      else return h
  | none => return h

/-- `EPCISParser.parse_document` on the JSON path, after `json.loads`
succeeded: `_parse_json`, then the guarded header post-processing (whose
raises become `Document parsing error` format errors). -/
def parse_document_json (data : Json) : ParseResult :=
  let q := parse_json data
  match q.1 with
  | some h =>
      if jsonTruthy h then
        match headerPost h with
        | .ok h2 => ⟨some h2, q.2.1, q.2.2.1, q.2.2.2⟩
        | .error e => ⟨some h, q.2.1, q.2.2.1, q.2.2.2 ++
            [⟨"format", "error", "Document parsing error: " ++ e, none⟩]⟩
      else ⟨q.1, q.2.1, q.2.2.1, q.2.2.2⟩
  | none => ⟨none, q.2.1, q.2.2.1, q.2.2.2⟩

/-- `validate_document(content, is_xml=False)` on a fresh engine, for a
JSON document that decodes to `data`. -/
def validateDocumentJson (data : Json) : Report :=
  (validate_document initSeqState (parse_document_json data)).2

/-! ## Theorems about the orchestrator -/

def typeErrMsg : String :=
  "validate_dates_order() missing 1 required positional argument: \x27later_date\x27"

/-- `validate_event` raises on every event: its first statement calls the
two-parameter `utils.validate_dates_order` with one argument. -/
theorem validate_event_raises (pe : PyEvent) (auth : List String) :
    validate_event pe auth = .error typeErrMsg := by
  cases pe <;> rfl

theorem eventsLoop_error (acc : List VError) (pe : PyEvent) (rest : List PyEvent)
    (c : List String) : eventsLoop acc (pe :: rest) c = .error typeErrMsg := by
  unfold eventsLoop
  rw [validate_event_raises]

theorem tryValidate_state (s : SeqState) (pr : ParseResult) :
    (tryValidate s pr).1 = s := by
  unfold tryValidate
  by_cases hpe : pr.parseErrors.isEmpty
  · rw [if_pos hpe]
    cases hev : pr.events with
    | nil => rfl
    | cons pe rest =>
        rw [eventsLoop_error]
  · rw [if_neg hpe]

/-! ### C1: the minimal valid three-event document -/

def c1Sgtin : String := "urn:epc:id:sgtin:0614141.107346.2017"

def c1Commission : Event :=
  { eventType := some "ObjectEvent", action := some "ADD",
    eventTime := some "2024-01-15T10:30:47Z", eventTimeZoneOffset := some "+00:00",
    epcList := some [c1Sgtin],
    bizStep := some "urn:epcglobal:cbv:bizstep:commissioning",
    disposition := some "urn:epcglobal:cbv:disp:active" }

def c1Pack : Event :=
  { eventType := some "AggregationEvent", action := some "ADD",
    eventTime := some "2024-01-15T11:00:47Z", eventTimeZoneOffset := some "+00:00",
    parentID := some "urn:epc:id:sscc:0614141.1234567890",
    childEPCs := some [c1Sgtin],
    bizStep := some "urn:epcglobal:cbv:bizstep:packing",
    disposition := some "urn:epcglobal:cbv:disp:in_progress" }

def c1Ship : Event :=
  { eventType := some "ObjectEvent", action := some "OBSERVE",
    eventTime := some "2024-01-15T11:30:47Z", eventTimeZoneOffset := some "+00:00",
    epcList := some [c1Sgtin],
    bizStep := some "urn:epcglobal:cbv:bizstep:shipping",
    disposition := some "urn:epcglobal:cbv:disp:in_transit",
    bizTransactionList := some [.tdict (some "urn:epcglobal:cbv:btt:po"),
                                .tdict (some "urn:epcglobal:cbv:btt:desadv")],
    extension := some
      { sourceList := some [.sdict (some "urn:epcglobal:cbv:sdt:owning_party"),
                            .sdict (some "urn:epcglobal:cbv:sdt:location")],
        destinationList := some [.sdict (some "urn:epcglobal:cbv:sdt:owning_party"),
                                 .sdict (some "urn:epcglobal:cbv:sdt:location")] } }

/-- The parse result of the claim's document: commissioning, packing and
shipping events in order with strictly increasing times. -/
def c1Doc : ParseResult :=
  { events := [.evt c1Commission, .evt c1Pack, .evt c1Ship], companies := ["0614141"] }

/-- C1 (code bug): on the minimal valid three-event document the engine
returns the system-error report — `validate_event` raises `TypeError` on
the first event because `event_validation.py:65` calls the two-parameter
`utils.validate_dates_order` with one argument — instead of the expected
`valid=true` report with a single `sequence` warning, which the
repository's own `tests/test_epcis.py` asserts for this document. -/
theorem C1_minimal_sequence_system_error :
    (validate_document initSeqState c1Doc).2 =
      [("valid", RVal.b false),
       ("errors", RVal.errs [⟨"system", "error",
         "System error during validation: " ++ typeErrMsg, none⟩])] := rfl

/-! ### C2: exception reporting -/

/-- C2 (counterexample): for the JSON document `5`, an internal exception
(`TypeError` raised by the `'@context' in data` membership test) occurs
during parsing; `_parse_json` catches it and reports a `format` error, so
the report returned by `validate_document` has `valid=false` but its
single entry has type `format`, not `system`. -/
theorem C2_parse_exception_not_system :
    contextMissing (.jn 5) = .error "argument of type \x27int\x27 is not iterable" ∧
    validateDocumentJson (.jn 5) =
      [("valid", RVal.b false), ("header", RVal.hdr none), ("eventCount", RVal.n 0),
       ("companies", RVal.strs []),
       ("errors", RVal.errs
         [⟨"format", "error",
           "JSON parsing error: argument of type \x27int\x27 is not iterable", none⟩])] ∧
    "format" ≠ "system" :=
  ⟨rfl, rfl, by decide⟩

/-- C2 (amended): `validate_document` never raises, and whenever an
exception reaches its own handler (any exception not already converted by
the parser into `format` parse errors), the report is `valid=false` with
exactly one `system`/`error` entry. -/
theorem C2_system_error_report (st : SeqState) (pr : ParseResult) (e : String)
    (h : (tryValidate st pr).2 = .error e) :
    (validate_document st pr).2 =
      [("valid", RVal.b false),
       ("errors", RVal.errs [⟨"system", "error",
         "System error during validation: " ++ e, none⟩])] := by
  unfold validate_document
  rcases htv : tryValidate st pr with ⟨s1, res⟩
  rw [htv] at h
  simp only at h
  subst h
  rfl

def c2WitDoc : ParseResult := { events := [.evt {}] }

/-- Witness for C2: a document with a single (empty) event makes the
event-validation loop raise, and the report is the system-error one. -/
theorem C2_system_error_report_witness :
    (validate_document initSeqState c2WitDoc).2 =
      [("valid", RVal.b false),
       ("errors", RVal.errs [⟨"system", "error",
         "System error during validation: " ++ typeErrMsg, none⟩])] :=
  C2_system_error_report initSeqState c2WitDoc typeErrMsg rfl

/-! ### C3: validity is absence of error-severity entries -/

/-- C3: on every path (normal and system-error), the report's `valid`
field is `true` exactly when no entry of its `errors` list has severity
`error`; warnings never block validity. -/
theorem C3_valid_iff_no_error_severity (st : SeqState) (pr : ParseResult) :
    reportValid (validate_document st pr).2 = some true ↔
      ∀ e ∈ reportErrors (validate_document st pr).2, e.severity ≠ "error" := by
  unfold validate_document
  rcases htv : tryValidate st pr with ⟨s1, res⟩
  cases res with
  | error e =>
      show (some false : Option Bool) = some true ↔
        ∀ x ∈ [(⟨"system", "error", "System error during validation: " ++ e, none⟩ : VError)],
          x.severity ≠ "error"
      constructor
      · intro hv
        simp at hv
      · intro hall
        have := hall ⟨"system", "error", "System error during validation: " ++ e, none⟩
          (List.mem_singleton_self _)
        simp at this
  | ok errors =>
      show some (decide ((errors.filter (fun e => e.severity = "error")).length = 0)) =
          some true ↔ ∀ x ∈ errors, x.severity ≠ "error"
      simp only [Option.some_inj, decide_eq_true_eq]
      rw [List.length_eq_zero, List.filter_eq_nil_iff]
      simp

/-! ### C4: statelessness across documents -/

/-- C4: the validator state is never mutated by `validate_document` (with
events present, the event-validation loop raises before the stateful
sequence passes run; with no events the passes are no-ops), so a second
call with the identical input returns the identical report. -/
theorem C4_stateless_identical_reports (st : SeqState) (pr : ParseResult) :
    (validate_document st pr).1 = st ∧
    (validate_document (validate_document st pr).1 pr).2 = (validate_document st pr).2 := by
  have h1 : ∀ s, (validate_document s pr).1 = s := by
    intro s
    unfold validate_document
    rcases htv : tryValidate s pr with ⟨s1, res⟩
    have hst := tryValidate_state s pr
    rw [htv] at hst
    simp only at hst
    subst hst
    cases res <;> rfl
  exact ⟨h1 st, by rw [h1 st]⟩

/-! ### C10: keys of the exception-path report -/

/-- C10: whenever `validate_document` catches an internal exception, the
returned dictionary has exactly the keys `valid` and `errors` (no
`header`, `eventCount` or `companies`). -/
theorem C10_exception_report_keys (st : SeqState) (pr : ParseResult) (e : String)
    (h : (tryValidate st pr).2 = .error e) :
    reportKeys (validate_document st pr).2 = ["valid", "errors"] := by
  unfold validate_document
  rcases htv : tryValidate st pr with ⟨s1, res⟩
  rw [htv] at h
  simp only at h
  subst h
  rfl

def c10WitDoc : ParseResult := { events := [.evt {}, .evt c1Commission] }

/-- Witness for C10 at a concrete two-event document. -/
theorem C10_exception_report_keys_witness :
    reportKeys (validate_document initSeqState c10WitDoc).2 = ["valid", "errors"] :=
  C10_exception_report_keys initSeqState c10WitDoc typeErrMsg rfl

/-! ### C5: reports are not aggregated -/

def c5CexDoc : Json :=
  .jobj [("@context", .jarr [.js "https://gs1.org/epcis-context.jsonld"]),
         ("eventList", .jarr [.js "a", .js "b"])]

def c5DupErr : VError :=
  ⟨"format", "error",
   "Error parsing event: \x27str\x27 object has no attribute \x27get\x27", none⟩

/-- C5 (counterexample): `validate_document` never routes its report
through the aggregator.  The JSON document whose `eventList` is
`["a", "b"]` yields two identical `format` parse errors — two distinct
report entries sharing the same `(type, severity, base_message,
line_number)` tuple. -/
theorem C5_report_not_aggregated :
    validateDocumentJson c5CexDoc =
      [("valid", RVal.b false), ("header", RVal.hdr none), ("eventCount", RVal.n 2),
       ("companies", RVal.strs []),
       ("errors", RVal.errs [c5DupErr, c5DupErr])] := rfl

/-! ### C6: shipping-event requirements -/

def c6CexEvent : Event :=
  { eventType := some "ObjectEvent", action := some "OBSERVE",
    eventTime := some "2024-01-15T11:30:47Z", eventTimeZoneOffset := some "+00:00",
    epcList := some [c1Sgtin],
    bizStep := some "urn:epcglobal:cbv:bizstep:shipping" }

/-- C6 (counterexample): for a shipping event missing both required
transaction types and all source/destination types, `validate_event`
emits no field errors at all — it raises `TypeError` on its first
statement — so the claim about what `validate_event` emits fails. -/
theorem C6_validate_event_emits_nothing :
    validate_event (.evt c6CexEvent) ["0614141"] = .error typeErrMsg ∧
    ¬ ∃ errs, validate_event (.evt c6CexEvent) ["0614141"] = .ok errs := by
  refine ⟨rfl, ?_⟩
  rintro ⟨errs, h⟩
  rw [validate_event_raises] at h
  exact Except.noConfusion h

/-- C6 (amended): `validate_event` raises on every event; the shipping
checks are implemented by `_validate_shipping_event` (dispatched, after
the `AggregationEvent` branch, only for non-AggregationEvent events),
which for every event emits exactly one `field` error per required
transaction type absent from the dict entries of `bizTransactionList`,
then one per required type suffix (`owning_party`, `location`) absent
from `extension.sourceList`, then the same for
`extension.destinationList`. -/
theorem C6_shipping_required_errors (ev : Event) :
    (∀ auth, validate_event (.evt ev) auth = .error typeErrMsg) ∧
    validateShippingEvent ev =
      ((REQUIRED_TXN_TYPES_SHIPPING.filter
        (fun rt => decide (¬ some rt ∈ txnFoundTypes (ev.bizTransactionList.getD [])))).map
          (fun rt => ⟨"field", "error",
            "Missing required transaction type in shipping event: " ++ rt, none⟩)) ++
      (((["owning_party", "location"] : List String).filter
        (fun rt => decide (¬ rt ∈ sdFoundTypes (((ev.extension.getD {}).sourceList).getD [])))).map
          (fun rt => ⟨"field", "error", "Missing required sourceList type: " ++ rt, none⟩) ++
       ((["owning_party", "location"] : List String).filter
        (fun rt => decide (¬ rt ∈ sdFoundTypes (((ev.extension.getD {}).destinationList).getD [])))).map
          (fun rt => ⟨"field", "error", "Missing required destinationList type: " ++ rt, none⟩)) := by
  refine ⟨fun auth => validate_event_raises _ auth, ?_⟩
  by_cases h1 : some "urn:epcglobal:cbv:btt:po" ∈ txnFoundTypes (ev.bizTransactionList.getD []) <;>
  by_cases h2 : some "urn:epcglobal:cbv:btt:desadv" ∈ txnFoundTypes (ev.bizTransactionList.getD []) <;>
  by_cases h3 : "owning_party" ∈ sdFoundTypes (((ev.extension.getD {}).sourceList).getD []) <;>
  by_cases h4 : "location" ∈ sdFoundTypes (((ev.extension.getD {}).sourceList).getD []) <;>
  by_cases h5 : "owning_party" ∈ sdFoundTypes (((ev.extension.getD {}).destinationList).getD []) <;>
  by_cases h6 : "location" ∈ sdFoundTypes (((ev.extension.getD {}).destinationList).getD []) <;>
  simp [validateShippingEvent, REQUIRED_TXN_TYPES_SHIPPING, h1, h2, h3, h4, h5, h6]

/-! ### C7: ILMD requirements -/

def c7Ilmd : List (String × String) :=
  [("cbvmda:lotNumber", "LOT123"), ("itemExpirationDate", "2025-06-30")]

def c7CexEvent : Event :=
  { eventType := some "ObjectEvent", action := some "ADD",
    eventTime := some "2024-01-15T10:30:47Z",
    epcList := some [c1Sgtin],
    bizStep := some "urn:epcglobal:cbv:bizstep:commissioning",
    ilmd := some c7Ilmd }

/-- C7 (counterexample): an ilmd providing only the `cbvmda:`-prefixed
form of `lotNumber` (with a valid bare `itemExpirationDate`) does yield a
missing-field error: for `lotNumber` the fallback path is the bare key
itself, so `cbvmda:lotNumber` is never consulted.  `validate_event`
additionally raises before ever reaching the ILMD check. -/
theorem C7_cbvmda_lotNumber_not_accepted :
    validateIlmdData c7CexEvent =
      [⟨"field", "error", "Missing required ILMD field: lotNumber", none⟩] ∧
    validate_event (.evt c7CexEvent) ["0614141"] = .error typeErrMsg :=
  ⟨rfl, rfl⟩

/-- C7 (amended): for a commissioning event with an ilmd, the ILMD check
requires `lotNumber` under the bare key only; `itemExpirationDate` is
taken from `cbvmda:itemExpirationDate` when that key is present and from
the bare key otherwise, and a present (truthy) value additionally gets a
format error when it does not parse as `YYYY-MM-DD`. -/
theorem C7_ilmd_checks (ev : Event) (m : List (String × String))
    (hbs : strEndsWith (ev.bizStep.getD "") "commissioning" = true)
    (hilmd : ev.ilmd = some m) :
    validateIlmdData ev =
      (if optStrTruthy (ilmdGet m "lotNumber") then []
       else [⟨"field", "error", "Missing required ILMD field: lotNumber", none⟩]) ++
      ((if optStrTruthy (match ilmdGet m "cbvmda:itemExpirationDate" with
          | some v => some v
          | none => ilmdGet m "itemExpirationDate") then []
        else [⟨"field", "error", "Missing required ILMD field: itemExpirationDate", none⟩]) ++
       (match (match ilmdGet m "cbvmda:itemExpirationDate" with
          | some v => some v
          | none => ilmdGet m "itemExpirationDate") with
        | some v =>
            if v ≠ "" ∧ validate_date_format v = false then
              [⟨"field", "error",
                "Invalid date format in ILMD field itemExpirationDate: " ++ v, none⟩]
            else []
        | none => [])) := by
  unfold validateIlmdData
  rw [hbs, hilmd]
  simp only [if_true]
  unfold ilmdFieldErrs
  have hED : strEndsWith "itemExpirationDate" "Date" = true := by decide
  have hLD : strEndsWith "lotNumber" "Date" = false := by decide
  cases hlot : ilmdGet m "lotNumber" <;>
  cases hexp : ilmdGet m "cbvmda:itemExpirationDate" <;>
  cases hbare : ilmdGet m "itemExpirationDate" <;>
    simp_all [optStrTruthy, validate_date_format, hED, hLD, ite_and, Bool.not_eq_true]

def c7WitEvent : Event :=
  { bizStep := some "urn:epcglobal:cbv:bizstep:commissioning",
    ilmd := some [("lotNumber", "L1"), ("itemExpirationDate", "30-06-2025")] }

/-- Witness for C7: a commissioning event whose `itemExpirationDate` is
not `YYYY-MM-DD` gets exactly the date-format error. -/
theorem C7_ilmd_checks_witness :
    validateIlmdData c7WitEvent =
      [⟨"field", "error",
        "Invalid date format in ILMD field itemExpirationDate: 30-06-2025", none⟩] :=
  (C7_ilmd_checks c7WitEvent [("lotNumber", "L1"), ("itemExpirationDate", "30-06-2025")]
    (by decide) rfl).trans rfl

/-! ### C8: the out-of-order scan of the closure pass -/

def c8Epc : String := "urn:epc:id:sgtin:0614141.107346.2017"

def c8Steps : List (String × Instant) :=
  [("commissioning", ⟨2024, 1, 15, 10, 0, 0, 0⟩),
   ("commissioning", ⟨2024, 1, 15, 11, 0, 0, 0⟩)]

/-- C8 (counterexample): a repeated step is flagged.  For an EPC whose
recorded steps are two commissioning entries at increasing instants, the
closure pass emits an "Out of order" error for the second one, although
no step processed earlier in the sorted list has a strictly higher DSCSA
ordinal (both have ordinal 0). -/
theorem C8_repeated_step_flagged :
    validateCompleteSequence [(c8Epc, c8Steps)] =
      [⟨"sequence", "error",
        "Out of order event for " ++ c8Epc ++ ": commissioning after commissioning", none⟩,
       ⟨"sequence", "warning",
        "Incomplete sequence for " ++ c8Epc ++ ": ends with commissioning", none⟩] ∧
    ¬ ∃ j p, j < 1 ∧ c8Steps.get? j = some p ∧ p.1 ∈ EVENT_SEQUENCE ∧
        stepOrd "commissioning" < stepOrd p.1 := by
  constructor
  · rfl
  · rintro ⟨j, p, hj, hp, _, hlt⟩
    have hj0 : j = 0 := by omega
    subst hj0
    simp only [c8Steps, List.get?] at hp
    cases hp
    exact absurd hlt (lt_irrefl _)

/-- Ordinal of the most recent step before position `i` that lies in
`EVENT_SEQUENCE`, starting from `cur` (the pass starts from -1). -/
def prevSeqOrdFrom (cur : Int) (l : List (String × Instant)) (i : Nat) : Int :=
  (l.take i).foldl (fun acc p => if p.1 ∈ EVENT_SEQUENCE then stepOrd p.1 else acc) cur

/-- Position `i` is flagged "out of order": its step is in
`EVENT_SEQUENCE` and its ordinal is ≤ the previous in-sequence ordinal. -/
def flaggedFrom (cur : Int) (l : List (String × Instant)) (i : Nat) : Bool :=
  match l.get? i with
  | some p => decide (p.1 ∈ EVENT_SEQUENCE) && decide (stepOrd p.1 ≤ prevSeqOrdFrom cur l i)
  | none => false

/-- The error the scan emits for a flagged position `i`. -/
def outErrFrom (cur : Int) (epc : String) (l : List (String × Instant)) (i : Nat) : VError :=
  ⟨"sequence", "error", "Out of order event for " ++ epc ++ ": " ++
    (match l.get? i with | some p => p.1 | none => "") ++ " after " ++
    seqStepAt (prevSeqOrdFrom cur l i), none⟩

theorem closureScan_spec (epc : String) :
    ∀ (l : List (String × Instant)) (cur : Int),
      closureScan epc cur l =
        ((List.range l.length).filter (fun i => flaggedFrom cur l i)).map
          (fun i => outErrFrom cur epc l i) := by
  intro l
  induction l with
  | nil => intro cur; rfl
  | cons p rest ih =>
      obtain ⟨step, inst⟩ := p
      intro cur
      have hf : ∀ i : Nat, flaggedFrom cur ((step, inst) :: rest) (i + 1) =
          flaggedFrom (if step ∈ EVENT_SEQUENCE then stepOrd step else cur) rest i := by
        intro i
        unfold flaggedFrom prevSeqOrdFrom
        simp [List.take_succ_cons]
      have he : ∀ i : Nat, outErrFrom cur epc ((step, inst) :: rest) (i + 1) =
          outErrFrom (if step ∈ EVENT_SEQUENCE then stepOrd step else cur) epc rest i := by
        intro i
        unfold outErrFrom prevSeqOrdFrom
        simp [List.take_succ_cons]
      have hshift :
          (((List.range rest.length).map Nat.succ).filter
            (fun i => flaggedFrom cur ((step, inst) :: rest) i)).map
            (fun i => outErrFrom cur epc ((step, inst) :: rest) i) =
          closureScan epc (if step ∈ EVENT_SEQUENCE then stepOrd step else cur) rest := by
        rw [List.filter_map, List.map_map]
        rw [show ((fun i => flaggedFrom cur ((step, inst) :: rest) i) ∘ Nat.succ) =
            (fun i => flaggedFrom (if step ∈ EVENT_SEQUENCE then stepOrd step else cur) rest i)
          from funext hf]
        rw [show ((fun i => outErrFrom cur epc ((step, inst) :: rest) i) ∘ Nat.succ) =
            (fun i => outErrFrom (if step ∈ EVENT_SEQUENCE then stepOrd step else cur) epc rest i)
          from funext he]
        exact (ih _).symm
      have hrange : List.range ((step, inst) :: rest).length =
          0 :: (List.range rest.length).map Nat.succ := by
        simp [List.range_succ_eq_map]
      by_cases hmem : step ∈ EVENT_SEQUENCE
      · rw [if_pos hmem] at hshift
        by_cases hle : stepOrd step ≤ cur
        · have h0 : flaggedFrom cur ((step, inst) :: rest) 0 = true := by
            simp [flaggedFrom, prevSeqOrdFrom, hmem, hle]
          rw [hrange, List.filter_cons, h0]
          simp only [if_true, List.map_cons]
          rw [hshift]
          simp only [closureScan, if_pos hmem, if_pos hle]
          rfl
        · have h0 : flaggedFrom cur ((step, inst) :: rest) 0 = false := by
            simp [flaggedFrom, prevSeqOrdFrom, hle]
          rw [hrange, List.filter_cons, h0]
          simp only [Bool.false_eq_true, if_false]
          rw [hshift]
          simp only [closureScan, if_pos hmem, if_neg hle]
          rfl
      · rw [if_neg hmem] at hshift
        have h0 : flaggedFrom cur ((step, inst) :: rest) 0 = false := by
          simp [flaggedFrom, prevSeqOrdFrom, hmem]
        rw [hrange, List.filter_cons, h0]
        simp only [Bool.false_eq_true, if_false]
        rw [hshift]
        simp only [closureScan, if_neg hmem]

/-- C8 (amended): in the closure pass over an EPC's step list sorted by
instant, position `i` is flagged "out of order" exactly when its step is
in `EVENT_SEQUENCE` and its DSCSA ordinal is ≤ the ordinal of the most
recently processed in-sequence step before it (starting from -1).
Repeated steps are therefore flagged, and the comparison is against the
previous in-sequence step only, not against the maximum of all earlier
steps. -/
theorem C8_out_of_order_flags (epc : String) (steps : List (String × Instant)) :
    closureScan epc (-1) (sortSteps steps) =
      ((List.range (sortSteps steps).length).filter
        (fun i => flaggedFrom (-1) (sortSteps steps) i)).map
        (fun i => outErrFrom (-1) epc (sortSteps steps) i) :=
  closureScan_spec epc (sortSteps steps) (-1)
